import Mathlib

/-!
Shallow embedding of the pywhispercpp transcript-serialization helpers
(src/pywhispercpp/utils.py) and of the GUI transcription worker
(src/pywhispercpp/examples/gui.py, class PyWhisperCppWorker), together with
theorems settling the specification claims about them.

Conventions of the embedding:
* Python non-negative integers are Nat.
* A file written by a serializer is modelled as the string of all bytes
  written, accumulated left to right with foldl, mirroring the sequential
  file.write calls of the source.
* pathlib Path(p).absolute() is modelled (POSIX, with current working
  directory cwd) as prefixing cwd ++ "/" unless the path is already absolute;
  Path.absolute does not normalize, it only prepends the working directory.
* The Python format string "{n:02,.0f}" (resp. "{n:03,.0f}") used by
  to_timestamp converts the integer to a float and prints it with no decimal
  digits, a comma as thousands separator, and zero padding to minimum width
  2 (resp. 3).  For every integer below 2^53 the float conversion is exact,
  so on that range (which covers every value these theorems touch) the
  rendering is exactly: decimal digits, commas inserted every three digits
  from the right, then left zero padding to the minimum width.  pyPad below
  implements exactly that (for widths at most 3 the zero padding can never
  itself cross a grouping boundary, so padding is plain '0' characters).
-/

namespace PyWhisperCpp

/-- A transcription segment as used by utils.py: start tick t0, end tick t1
(centiseconds), and the recognized text. -/
structure Segment where
  t0 : Nat
  t1 : Nat
  text : String
deriving DecidableEq, Repr

/-- Split a (reversed) digit list into groups of three, least significant
group first. -/
def chunk3 : List Char → List (List Char)
  | [] => []
  | [a] => [[a]]
  | [a, b] => [[a, b]]
  | a :: b :: c :: rest => [a, b, c] :: chunk3 rest

/-- Insert a comma every three digits from the right, as Python's "," format
option does for integral values. -/
def groupDigits (s : String) : String :=
  String.mk (List.reverse (List.intercalate [','] (chunk3 s.data.reverse)))

/-- Embedding of the Python format "{n:0W,.0f}" for a Nat n and width W at
most 3 (exact for n below 2^53, see the module docstring). -/
def pyPad (width : Nat) (n : Nat) : String :=
  let g := groupDigits (Nat.repr n)
  String.mk (List.replicate (width - g.length) '0') ++ g

/-- Embedding of utils.to_timestamp: the integer div/sub decomposition is
verbatim from the source, and each field is rendered with the Python format
"{...:02,.0f}" / "{...:03,.0f}" modelled by pyPad. -/
def to_timestamp (t : Nat) (separator : String) : String :=
  let msec := t * 10
  let hr := msec / (1000 * 60 * 60)
  let msec := msec - hr * (1000 * 60 * 60)
  let mn := msec / (1000 * 60)
  let msec := msec - mn * (1000 * 60)
  let sec := msec / 1000
  let msec := msec - sec * 1000
  pyPad 2 hr ++ ":" ++ pyPad 2 mn ++ ":" ++ pyPad 2 sec ++ separator ++ pyPad 3 msec

/-- Spec-side plain zero padding to a given width (no grouping): written from
the spec's words "Zero-pad hours/minutes/seconds to width 2, millis to
width 3", for comparison with the source's pyPad rendering. -/
def specPad (width : Nat) (n : Nat) : String :=
  String.mk (List.replicate (width - (Nat.repr n).length) '0') ++ Nat.repr n

/-- Spec-side timestamp codec, written from the spec's stated algorithm
(integer div/sub decomposition of ms_total = ticks * 10, then plain
zero-padded fields), for comparison with to_timestamp. -/
def specTimestamp (t : Nat) (separator : String) : String :=
  let msTotal := t * 10
  let hours := msTotal / 3600000
  let r1 := msTotal - hours * 3600000
  let minutes := r1 / 60000
  let r2 := r1 - minutes * 60000
  let seconds := r2 / 1000
  let millis := r2 - seconds * 1000
  specPad 2 hours ++ ":" ++ specPad 2 minutes ++ ":" ++ specPad 2 seconds ++
    separator ++ specPad 3 millis

/-- Embedding of the Python method str.endswith: true exactly when the
second string is a suffix of the first. -/
def endswith (s suffix : String) : Bool :=
  List.isSuffixOf suffix.data s.data

/-- Embedding of the Python method str.startswith, used to model absolute
path detection: true exactly when the second string is a prefix of the
first. -/
def startswith (s pre : String) : Bool :=
  List.isPrefixOf pre.data s.data

/-- Model of pathlib Path(p).absolute() on POSIX with working directory cwd:
prepend the working directory unless the path is already absolute. -/
def pathAbsolute (cwd p : String) : String :=
  if startswith p "/" then p else cwd ++ "/" ++ p

/-- Embedding of utils.output_txt.  Returns the path the function returns
and the full content written to the file. -/
def output_txt (cwd : String) (segments : List Segment) (output_file_path : String) :
    String × String :=
  let path := if endswith output_file_path ".txt" then output_file_path
    else output_file_path ++ ".txt"
  let absolute_path := pathAbsolute cwd path
  let content := segments.foldl (fun acc seg => acc ++ seg.text ++ "\n") ""
  (absolute_path, content)

/-- Embedding of utils.output_vtt. -/
def output_vtt (cwd : String) (segments : List Segment) (output_file_path : String) :
    String × String :=
  let path := if endswith output_file_path ".vtt" then output_file_path
    else output_file_path ++ ".vtt"
  let absolute_path := pathAbsolute cwd path
  let content := segments.foldl
    (fun acc seg =>
      acc ++ to_timestamp seg.t0 "." ++ " --> " ++ to_timestamp seg.t1 "." ++ "\n" ++
        seg.text ++ "\n\n")
    "WEBVTT\n\n"
  (absolute_path, content)

/-- Embedding of utils.output_srt.  The source iterates i over
range(len(segments)) and writes i+1 as the sequence number; the fold over
List.enum pairs each segment with its 0-based index i exactly as that loop
does. -/
def output_srt (cwd : String) (segments : List Segment) (output_file_path : String) :
    String × String :=
  let path := if endswith output_file_path ".srt" then output_file_path
    else output_file_path ++ ".srt"
  let absolute_path := pathAbsolute cwd path
  let content := segments.enum.foldl
    (fun acc iseg =>
      acc ++ Nat.repr (iseg.1 + 1) ++ "\n" ++
        to_timestamp iseg.2.t0 "," ++ " --> " ++ to_timestamp iseg.2.t1 "," ++ "\n" ++
        iseg.2.text ++ "\n\n")
    ""
  (absolute_path, content)

/-- Embedding of utils.output_csv. -/
def output_csv (cwd : String) (segments : List Segment) (output_file_path : String) :
    String × String :=
  let path := if endswith output_file_path ".csv" then output_file_path
    else output_file_path ++ ".csv"
  let absolute_path := pathAbsolute cwd path
  let content := segments.foldl
    (fun acc seg =>
      acc ++ Nat.repr (10 * seg.t0) ++ ", " ++ Nat.repr (10 * seg.t1) ++ ", \"" ++
        seg.text ++ "\"\n")
    ""
  (absolute_path, content)

/-- One callback invocation that the external Model's transcribe call
delivers to the worker: a new-segment callback or a progress callback
(gui.py passes new_segment_callback and a progress lambda to
model.transcribe). -/
inductive CallbackCall where
  | seg (s : Segment)
  | prog (p : Int)
deriving DecidableEq, Repr

/-- Outcome of the Model(...) construction in PyWhisperCppWorker.run: it
succeeds, raises an Exception with a message (caught by the except clause),
or raises a BaseException (not caught by except Exception, but the finally
clause still runs). -/
inductive LoadResult where
  | ok
  | err (msg : String)
  | fatal
deriving DecidableEq, Repr

/-- Outcome of the model.transcribe call once every callback has been
delivered: a normal return with the segment list, an Exception with a
message, or a BaseException. -/
inductive ModelOutcome where
  | success (segs : List Segment)
  | failure (msg : String)
  | fatal
deriving DecidableEq, Repr

/-- Behavior of the external Model capability during one run: the model
name the worker was given, what load does, the stream of callbacks
transcribe delivers, and how transcribe ends if no callback aborts it. -/
structure ModelBehavior where
  modelName : String
  load : LoadResult
  calls : List CallbackCall
  outcome : ModelOutcome
deriving DecidableEq, Repr

/-- One emission on a WorkerSignals signal (gui.py): status_update, segment,
progress, result, error, finished.  The error payload is modelled by the
exception message str(e). -/
inductive Event where
  | statusUpdate (s : String)
  | segmentEv (s : Segment)
  | progressEv (p : Int)
  | resultEv (segs : List Segment)
  | errorEv (msg : String)
  | finishedEv
deriving DecidableEq, Repr

/-- When the consumer's stop() call (which executes self._is_running =
False) lands relative to the background run:
* never: stop is not called during the run;
* beforeRunStart: stop lands after Thread.start() but before run() executes
  self._is_running = True inside the try block — run() then overwrites the
  False with True, so the rest of the run proceeds as if stop had never
  been called;
* atCall k: stop lands after run() has set the flag, just before the k-th
  transcribe callback is handled (k may be at or past the end of the call
  stream, in which case no callback ever observes the flag). -/
inductive CancelSchedule where
  | never
  | beforeRunStart
  | atCall (k : Nat)
deriving DecidableEq, Repr

/-- The message of the RuntimeError that new_segment_callback raises when it
observes self._is_running == False. -/
def stopMsg : String := "Transcription manually stopped"

/-- Process the transcribe callback stream.  The second argument is the
number of callbacks still to be handled before the stop() write lands (none
if it never lands during the stream; some 0 once it has landed).  Mirrors
gui.py: new_segment_callback first reads self._is_running and raises
RuntimeError when it is False, otherwise emits the segment signal; the
progress lambda emits the progress signal unconditionally.  Returns the
events the callbacks emitted and whether the RuntimeError aborted the
transcribe call. -/
def runCalls : List CallbackCall → Option Nat → List Event × Bool
  | [], _ => ([], false)
  | CallbackCall.seg _ :: _, some 0 => ([], true)
  | CallbackCall.seg s :: rest, some (k + 1) =>
      let r := runCalls rest (some k)
      (Event.segmentEv s :: r.1, r.2)
  | CallbackCall.seg s :: rest, none =>
      let r := runCalls rest none
      (Event.segmentEv s :: r.1, r.2)
  | CallbackCall.prog p :: rest, some 0 =>
      let r := runCalls rest (some 0)
      (Event.progressEv p :: r.1, r.2)
  | CallbackCall.prog p :: rest, some (k + 1) =>
      let r := runCalls rest (some k)
      (Event.progressEv p :: r.1, r.2)
  | CallbackCall.prog p :: rest, none =>
      let r := runCalls rest none
      (Event.progressEv p :: r.1, r.2)

/-- Embedding of PyWhisperCppWorker.run (gui.py), as the sequence of signal
emissions of one run, given the external Model's behavior and where a
stop() call lands.  The try body emits the loading status, constructs the
Model, emits the loaded status, runs transcribe with the two callbacks,
then emits the completion status and the result; the except Exception
clause emits an error status and the error signal; the finally clause
always emits finished last.  A stop() landing before run() sets
self._is_running = True is overwritten by that assignment, so
CancelSchedule.beforeRunStart leaves the callback stream uncancelled. -/
def workerRun (b : ModelBehavior) (cancel : CancelSchedule) : List Event :=
  let loading := Event.statusUpdate ("Loading model: " ++ b.modelName ++ "...")
  match b.load with
  | LoadResult.err msg =>
      [loading, Event.statusUpdate ("Error: " ++ msg), Event.errorEv msg, Event.finishedEv]
  | LoadResult.fatal => [loading, Event.finishedEv]
  | LoadResult.ok =>
    let cancelIdx : Option Nat :=
      match cancel with
      | CancelSchedule.never => none
      | CancelSchedule.beforeRunStart => none
      | CancelSchedule.atCall k => some k
    let r := runCalls b.calls cancelIdx
    let pre := loading :: Event.statusUpdate "Model loaded. Starting transcription..." :: r.1
    if r.2 then
      pre ++ [Event.statusUpdate ("Error: " ++ stopMsg), Event.errorEv stopMsg, Event.finishedEv]
    else
      match b.outcome with
      | ModelOutcome.success segs =>
          pre ++ [Event.statusUpdate "Transcription complete!", Event.resultEv segs,
            Event.finishedEv]
      | ModelOutcome.failure msg =>
          pre ++ [Event.statusUpdate ("Error: " ++ msg), Event.errorEv msg, Event.finishedEv]
      | ModelOutcome.fatal => pre ++ [Event.finishedEv]

theorem groupDigits_of_short (s : String) (h : s.length ≤ 3) : groupDigits s = s := by
  obtain ⟨l⟩ := s
  simp only [String.length_mk] at h
  rcases l with _ | ⟨a, _ | ⟨b, _ | ⟨c, _ | ⟨d, rest⟩⟩⟩⟩
  · rfl
  · rfl
  · rfl
  · rfl
  · simp only [List.length_cons] at h
    omega

set_option maxRecDepth 8000 in
theorem repr_length_le_three : ∀ n : Nat, n < 1000 → (Nat.repr n).length ≤ 3 := by decide

theorem pyPad_eq_specPad (width n : Nat) (h : n < 1000) : pyPad width n = specPad width n := by
  simp only [pyPad, specPad, groupDigits_of_short _ (repr_length_le_three n h)]

/-- C3: for every tick count t, to_timestamp computes h/m/s/ms of ms_total =
t*10 by the stated integer div/sub decomposition and zero-pads the fields to
widths 2/2/2/3 with the separator before millis — amended to tick counts
whose hour field stays below 1000 (t < 360000000), because the source's
Python format inserts a thousands-separator comma into larger hour values —
and the four concrete examples of the spec hold. -/
theorem to_timestamp_spec_agreement :
    (∀ (t : Nat) (separator : String), t < 360000000 →
      to_timestamp t separator = specTimestamp t separator) ∧
    to_timestamp 0 "," = "00:00:00,000" ∧ to_timestamp 0 "." = "00:00:00.000" ∧
    to_timestamp 376 "," = "00:00:03,760" ∧ to_timestamp 1344 "," = "00:00:13,440" := by
  refine ⟨?_, rfl, rfl, rfl, rfl⟩
  intro t separator ht
  simp only [to_timestamp, specTimestamp]
  norm_num
  rw [pyPad_eq_specPad 2 _ (by omega), pyPad_eq_specPad 2 _ (by omega),
    pyPad_eq_specPad 2 _ (by omega), pyPad_eq_specPad 3 _ (by omega)]

/-- Witness for the amended C3 theorem at t = 376. -/
theorem to_timestamp_spec_agreement_witness :
    (376 : Nat) < 360000000 ∧ to_timestamp 376 "," = specTimestamp 376 "," :=
  ⟨by norm_num, to_timestamp_spec_agreement.1 376 "," (by norm_num)⟩

/-- C3 counterexample: at t = 360000000 the hour field is 1000 and the
source renders it as "1,000" (Python thousands grouping), so the output is
not the plain zero-padded decomposition the claim states. -/
theorem to_timestamp_thousands_grouping :
    to_timestamp 360000000 "," = "1,000:00:00,000" ∧
    specTimestamp 360000000 "," = "1000:00:00,000" ∧
    to_timestamp 360000000 "," ≠ specTimestamp 360000000 "," := by
  refine ⟨rfl, rfl, ?_⟩
  decide

/-- C8: for every tick value t, the timestamp rendered with "." (as in VTT)
and the one rendered with "," (as in SRT) share the same text before and
after the separator and differ only at the separator itself. -/
theorem to_timestamp_separator_only_difference :
    ∀ t : Nat, ∃ p q : String,
      to_timestamp t "." = p ++ "." ++ q ∧ to_timestamp t "," = p ++ "," ++ q := by
  intro t
  exact ⟨_, _, rfl, rfl⟩

/-- A left fold that appends one string per element equals the initial
string followed by the row-by-row concatenation g of the list, whenever g
satisfies the natural recursion. -/
theorem foldl_build {α : Type} (step : String → α → String) (f : α → String)
    (g : List α → String) (hstep : ∀ acc a, step acc a = acc ++ f a) (h0 : g [] = "")
    (hc : ∀ a l, g (a :: l) = f a ++ g l) :
    ∀ (l : List α) (init : String), l.foldl step init = init ++ g l := by
  intro l
  induction l with
  | nil =>
    intro init
    simp [h0]
  | cons a tl ih =>
    intro init
    simp only [List.foldl_cons, hstep, ih, hc, String.append_assoc]

/-- Row-by-row content of the txt serializer: each segment's text exactly as
stored, followed by a newline. -/
def txtRows : List Segment → String
  | [] => ""
  | seg :: rest => seg.text ++ "\n" ++ txtRows rest

/-- Content written by output_txt, in closed row-by-row form. -/
theorem output_txt_content (cwd : String) (segments : List Segment) (p : String) :
    (output_txt cwd segments p).2 = txtRows segments := by
  simp only [output_txt]
  rw [foldl_build _ (fun seg => seg.text ++ "\n") txtRows
    (fun acc seg => by rw [String.append_assoc]) rfl (fun a l => by rw [txtRows, String.append_assoc])]
  exact String.empty_append _

/-- Spec-side trimming of surrounding whitespace, written from the spec's
words "trimmed text": drop whitespace characters from both ends. -/
def specTrim (s : String) : String :=
  String.mk (((s.data.dropWhile Char.isWhitespace).reverse.dropWhile Char.isWhitespace).reverse)

/-- Spec-side txt content as the claim states it: one line per segment
holding the trimmed text. -/
def specTxtRows : List Segment → String
  | [] => ""
  | seg :: rest => specTrim seg.text ++ "\n" ++ specTxtRows rest

/-- Row-by-row content of the csv serializer: start and end ticks times 10,
then the text wrapped in double quotes, no header row, no escaping. -/
def csvRows : List Segment → String
  | [] => ""
  | seg :: rest =>
      Nat.repr (10 * seg.t0) ++ ", " ++ Nat.repr (10 * seg.t1) ++ ", \"" ++ seg.text ++
        "\"\n" ++ csvRows rest

/-- Content written by output_csv, in closed row-by-row form. -/
theorem output_csv_content (cwd : String) (segments : List Segment) (p : String) :
    (output_csv cwd segments p).2 = csvRows segments := by
  simp only [output_csv]
  rw [foldl_build _
    (fun seg => Nat.repr (10 * seg.t0) ++ ", " ++ Nat.repr (10 * seg.t1) ++ ", \"" ++
      seg.text ++ "\"\n")
    csvRows (fun acc seg => by simp only [String.append_assoc]) rfl
    (fun a l => by simp only [csvRows, String.append_assoc])]
  exact String.empty_append _

/-- Spec-side SRT blocks, starting at sequence number n: number line,
timestamp line with comma separators, text line, blank line, then the rest
with the next number. -/
def srtBlocksFrom (n : Nat) : List Segment → String
  | [] => ""
  | seg :: rest =>
      Nat.repr n ++ "\n" ++ to_timestamp seg.t0 "," ++ " --> " ++ to_timestamp seg.t1 "," ++
        "\n" ++ seg.text ++ "\n\n" ++ srtBlocksFrom (n + 1) rest

/-- The SRT fold over the enumerated segment list, for any starting index
and accumulator, produces the blocks numbered from that index plus one. -/
theorem srt_fold (segments : List Segment) :
    ∀ (n : Nat) (init : String),
      (List.enumFrom n segments).foldl
        (fun acc iseg =>
          acc ++ Nat.repr (iseg.1 + 1) ++ "\n" ++
            to_timestamp iseg.2.t0 "," ++ " --> " ++ to_timestamp iseg.2.t1 "," ++ "\n" ++
            iseg.2.text ++ "\n\n")
        init = init ++ srtBlocksFrom (n + 1) segments := by
  induction segments with
  | nil =>
    intro n init
    simp [List.enumFrom, srtBlocksFrom]
  | cons seg tl ih =>
    intro n init
    rw [List.enumFrom, List.foldl_cons, ih (n + 1)]
    simp only [srtBlocksFrom, String.append_assoc]

/-- Content written by output_srt, in closed block form numbered from 1. -/
theorem output_srt_content (cwd : String) (segments : List Segment) (p : String) :
    (output_srt cwd segments p).2 = srtBlocksFrom 1 segments := by
  simp only [output_srt, List.enum]
  rw [srt_fold segments 0 ""]
  exact String.empty_append _

/-- C5 (amended): for every segment list the txt writer produces one
newline-terminated line per segment holding that segment's text exactly as
stored (the source does not trim surrounding whitespace), and nothing else
— in particular no timestamps. -/
theorem output_txt_one_line_per_segment :
    ∀ (cwd : String) (segments : List Segment) (p : String),
      (output_txt cwd segments p).2 = txtRows segments := by
  intro cwd segments p
  exact output_txt_content cwd segments p

/-- C5 counterexample: on a segment whose text carries surrounding
whitespace, the content output_txt writes differs from the trimmed lines the
claim describes. -/
theorem output_txt_does_not_trim :
    (output_txt "/w" [⟨0, 0, " hi "⟩] "out").2 = " hi \n" ∧
    specTxtRows [⟨0, 0, " hi "⟩] = "hi\n" ∧
    (output_txt "/w" [⟨0, 0, " hi "⟩] "out").2 ≠ specTxtRows [⟨0, 0, " hi "⟩] := by
  refine ⟨rfl, rfl, ?_⟩
  decide

/-- C6: for every segment list the CSV writer emits one row per segment of
the form start*10, end*10, then the text wrapped in unescaped double quotes,
with no header row; and on the segment with ticks 100, 200 and text hi it
emits exactly the claimed line. -/
theorem output_csv_row_format :
    (∀ (cwd : String) (segments : List Segment) (p : String),
      (output_csv cwd segments p).2 = csvRows segments) ∧
    (output_csv "/w" [⟨100, 200, "hi"⟩] "out").2 = "1000, 2000, \"hi\"\n" := by
  refine ⟨?_, rfl⟩
  intro cwd segments p
  exact output_csv_content cwd segments p

/-- C7: for every non-empty segment list the SRT writer emits, in input
order, one block per segment made of the 1-based sequence number line
(numbers increasing by one with the input position, whatever the segment
contents), the comma-separated timestamp line, the text line and a blank
line. -/
theorem output_srt_block_structure (cwd : String) (segments : List Segment) (p : String)
    (_h : segments ≠ []) :
    (output_srt cwd segments p).2 = srtBlocksFrom 1 segments :=
  output_srt_content cwd segments p

/-- Witness for the C7 theorem on a one-segment list. -/
theorem output_srt_block_structure_witness :
    ([(⟨0, 376, "a"⟩ : Segment)] ≠ []) ∧
    (output_srt "/w" [⟨0, 376, "a"⟩] "out").2 = srtBlocksFrom 1 [⟨0, 376, "a"⟩] :=
  ⟨by decide, output_srt_block_structure "/w" [⟨0, 376, "a"⟩] "out" (by decide)⟩

/-- C9: each of the four writers appends its canonical extension exactly
when the given path does not already end with it, and returns the
absolutized path of the file it writes. -/
theorem writers_extension_and_path (cwd p : String) (segments : List Segment) :
    ((¬endswith p ".txt" = true →
        (output_txt cwd segments p).1 = pathAbsolute cwd (p ++ ".txt")) ∧
      (endswith p ".txt" = true → (output_txt cwd segments p).1 = pathAbsolute cwd p)) ∧
    ((¬endswith p ".vtt" = true →
        (output_vtt cwd segments p).1 = pathAbsolute cwd (p ++ ".vtt")) ∧
      (endswith p ".vtt" = true → (output_vtt cwd segments p).1 = pathAbsolute cwd p)) ∧
    ((¬endswith p ".srt" = true →
        (output_srt cwd segments p).1 = pathAbsolute cwd (p ++ ".srt")) ∧
      (endswith p ".srt" = true → (output_srt cwd segments p).1 = pathAbsolute cwd p)) ∧
    ((¬endswith p ".csv" = true →
        (output_csv cwd segments p).1 = pathAbsolute cwd (p ++ ".csv")) ∧
      (endswith p ".csv" = true → (output_csv cwd segments p).1 = pathAbsolute cwd p)) := by
  refine ⟨⟨?_, ?_⟩, ⟨?_, ?_⟩, ⟨?_, ?_⟩, ⟨?_, ?_⟩⟩ <;> intro h <;>
    simp [output_txt, output_vtt, output_srt, output_csv, h]

/-- Witness for the C9 theorem: a path lacking the txt extension gets it
appended. -/
theorem writers_extension_and_path_witness :
    (¬endswith "audio" ".txt" = true) ∧
    (output_txt "/w" [] "audio").1 = pathAbsolute "/w" ("audio" ++ ".txt") :=
  ⟨by decide, (writers_extension_and_path "/w" "audio" []).1.1 (by decide)⟩

/-- C10: on the empty segment list the VTT writer writes exactly the WEBVTT
header line followed by a blank line, the txt, SRT and CSV writers write
nothing at all, and every writer still returns the absolutized output path
(the writers are total). -/
theorem writers_on_empty_list (cwd p : String) :
    (output_txt cwd [] p).2 = "" ∧ (output_vtt cwd [] p).2 = "WEBVTT\n\n" ∧
    (output_srt cwd [] p).2 = "" ∧ (output_csv cwd [] p).2 = "" ∧
    (output_txt cwd [] p).1 =
      pathAbsolute cwd (if endswith p ".txt" then p else p ++ ".txt") ∧
    (output_vtt cwd [] p).1 =
      pathAbsolute cwd (if endswith p ".vtt" then p else p ++ ".vtt") ∧
    (output_srt cwd [] p).1 =
      pathAbsolute cwd (if endswith p ".srt" then p else p ++ ".srt") ∧
    (output_csv cwd [] p).1 =
      pathAbsolute cwd (if endswith p ".csv" then p else p ++ ".csv") :=
  ⟨rfl, rfl, rfl, rfl, rfl, rfl, rfl, rfl⟩

/-- Boolean test for the finished lifecycle event. -/
def isFinished : Event → Bool
  | Event.finishedEv => true
  | _ => false

/-- The callback stream never emits the finished signal itself. -/
theorem runCalls_no_finished (calls : List CallbackCall) (c : Option Nat) :
    ((runCalls calls c).1).countP isFinished = 0 := by
  induction calls generalizing c with
  | nil => rfl
  | cons hd tl ih =>
    cases hd with
    | seg s =>
      match c with
      | some 0 => rfl
      | some (k + 1) => simpa [runCalls, isFinished] using ih (some k)
      | none => simpa [runCalls, isFinished] using ih none
    | prog p =>
      match c with
      | some 0 => simpa [runCalls, isFinished] using ih (some 0)
      | some (k + 1) => simpa [runCalls, isFinished] using ih (some k)
      | none => simpa [runCalls, isFinished] using ih none

/-- An event list of the shape prefix ++ tail, where the prefix has no
finished event and the tail has exactly one with it in last position, has
exactly one finished event and it is the last element. -/
theorem events_end_with_finished (pre tail : List Event)
    (hpre : pre.countP isFinished = 0) (h1 : tail.countP isFinished = 1)
    (hlast : tail.getLast? = some Event.finishedEv) :
    ((pre ++ tail).countP isFinished = 1) ∧
    ((pre ++ tail).getLast? = some Event.finishedEv) := by
  constructor
  · simp [List.countP_append, hpre, h1]
  · have ht : tail ≠ [] := by
      intro he
      rw [he] at hlast
      simp at hlast
    rw [List.getLast?_append_of_ne_nil _ ht]
    exact hlast

/-- C2: whatever the Model behavior (load failure, transcribe success,
transcribe failure, an uncaught fault at either step) and wherever a stop
lands, the run emits the finished signal exactly once, and it is the last
event of the run: the source emits it from the finally clause. -/
theorem run_finished_exactly_once_and_last (b : ModelBehavior) (cancel : CancelSchedule) :
    (workerRun b cancel).countP isFinished = 1 ∧
    (workerRun b cancel).getLast? = some Event.finishedEv := by
  obtain ⟨name, load, calls, outcome⟩ := b
  cases load with
  | err msg => exact ⟨rfl, rfl⟩
  | fatal => exact ⟨rfl, rfl⟩
  | ok =>
    simp only [workerRun]
    cases cancel <;> split <;> (try split) <;>
      (refine events_end_with_finished _ _ ?_ ?_ ?_ <;>
        first
          | rfl
          | simp [List.countP_cons, isFinished, runCalls_no_finished])

/-- C1: concrete run showing the claim fails on the code.  The stop() that
lands immediately after start(), before run() executes self._is_running =
True, is overwritten by that assignment: the run proceeds, emits the result
(Completed) signal, and emits no cancellation-flavoured event at all (the
worker has no cancelled signal; an effective stop surfaces only as the
error signal with the stop message, which this run never emits).  The same
event list results when the stop lands after the last segment callback
(atCall 1), since only new_segment_callback ever reads the flag. -/
theorem immediate_cancel_lost_run_completes :
    workerRun ⟨"tiny", LoadResult.ok, [CallbackCall.seg ⟨0, 50, "hello"⟩],
        ModelOutcome.success [⟨0, 50, "hello"⟩]⟩ CancelSchedule.beforeRunStart =
      [Event.statusUpdate "Loading model: tiny...",
        Event.statusUpdate "Model loaded. Starting transcription...",
        Event.segmentEv ⟨0, 50, "hello"⟩,
        Event.statusUpdate "Transcription complete!",
        Event.resultEv [⟨0, 50, "hello"⟩],
        Event.finishedEv] ∧
    (∀ e ∈ workerRun ⟨"tiny", LoadResult.ok, [CallbackCall.seg ⟨0, 50, "hello"⟩],
        ModelOutcome.success [⟨0, 50, "hello"⟩]⟩ CancelSchedule.beforeRunStart,
      e ≠ Event.errorEv stopMsg) ∧
    workerRun ⟨"tiny", LoadResult.ok, [CallbackCall.seg ⟨0, 50, "hello"⟩],
        ModelOutcome.success [⟨0, 50, "hello"⟩]⟩ (CancelSchedule.atCall 1) =
      workerRun ⟨"tiny", LoadResult.ok, [CallbackCall.seg ⟨0, 50, "hello"⟩],
        ModelOutcome.success [⟨0, 50, "hello"⟩]⟩ CancelSchedule.beforeRunStart := by
  refine ⟨rfl, ?_, rfl⟩
  decide

/-- Progress payload of an emitted event, if it is one. -/
def progOf : Event → Option Int
  | Event.progressEv p => some p
  | _ => none

/-- Progress payload of a delivered callback, if it is one. -/
def callProgOf : CallbackCall → Option Int
  | CallbackCall.prog p => some p
  | _ => none

/-- The progress percentages a run emits, in order. -/
def emittedProgress (evs : List Event) : List Int :=
  evs.filterMap progOf

/-- The progress percentages the Model delivers, in order. -/
def deliveredProgress (calls : List CallbackCall) : List Int :=
  calls.filterMap callProgOf

/-- The progress values emitted by the callback stream form a prefix of the
delivered ones: the worker passes each one through unmodified and in order,
and cancellation can only cut the stream short. -/
theorem runCalls_progress_isPrefix (calls : List CallbackCall) (c : Option Nat) :
    ((runCalls calls c).1).filterMap progOf <+: deliveredProgress calls := by
  induction calls generalizing c with
  | nil => exact List.nil_prefix
  | cons hd tl ih =>
    cases hd with
    | seg s =>
      match c with
      | some 0 => exact List.nil_prefix
      | some (k + 1) =>
        simpa [runCalls, deliveredProgress, progOf, callProgOf] using ih (some k)
      | none =>
        simpa [runCalls, deliveredProgress, progOf, callProgOf] using ih none
    | prog p =>
      match c with
      | some 0 =>
        simp only [runCalls, deliveredProgress, List.filterMap_cons, progOf, callProgOf]
        rw [List.cons_prefix_cons]
        exact ⟨rfl, ih (some 0)⟩
      | some (k + 1) =>
        simp only [runCalls, deliveredProgress, List.filterMap_cons, progOf, callProgOf]
        rw [List.cons_prefix_cons]
        exact ⟨rfl, ih (some k)⟩
      | none =>
        simp only [runCalls, deliveredProgress, List.filterMap_cons, progOf, callProgOf]
        rw [List.cons_prefix_cons]
        exact ⟨rfl, ih none⟩

/-- Whatever the Model behavior and cancel schedule, the progress values a
run emits form a prefix of those the Model delivered. -/
theorem workerRun_progress_isPrefix (b : ModelBehavior) (cancel : CancelSchedule) :
    emittedProgress (workerRun b cancel) <+: deliveredProgress b.calls := by
  obtain ⟨name, load, calls, outcome⟩ := b
  cases load with
  | err msg => exact List.nil_prefix
  | fatal => exact List.nil_prefix
  | ok =>
    simp only [workerRun]
    cases cancel <;> split <;> (try split) <;>
      simpa [emittedProgress, List.filterMap_append, List.filterMap_cons, progOf] using
        runCalls_progress_isPrefix calls _

/-- C4: whenever the Model honours its progress contract — every delivered
percentage within 0..100 and the sequence non-decreasing — every Progress
event a run emits carries a value in 0..100 and the emitted sequence is
non-decreasing: the worker's progress lambda forwards the values unchanged
and in order. -/
theorem progress_in_range_and_monotone (b : ModelBehavior) (cancel : CancelSchedule)
    (hbounds : ∀ q ∈ deliveredProgress b.calls, 0 ≤ q ∧ q ≤ 100)
    (hmono : List.Pairwise (· ≤ ·) (deliveredProgress b.calls)) :
    (∀ q ∈ emittedProgress (workerRun b cancel), 0 ≤ q ∧ q ≤ 100) ∧
    List.Pairwise (· ≤ ·) (emittedProgress (workerRun b cancel)) := by
  have hsub := (workerRun_progress_isPrefix b cancel).sublist
  exact ⟨fun q hq => hbounds q (hsub.subset hq), hmono.sublist hsub⟩

/-- Witness for the C4 theorem: a model that delivers percentages 10 then
50 around a segment, on an uncancelled run. -/
theorem progress_in_range_and_monotone_witness :
    (∀ q ∈ deliveredProgress [CallbackCall.prog 10, CallbackCall.seg ⟨0, 1, "x"⟩,
        CallbackCall.prog 50], 0 ≤ q ∧ q ≤ 100) ∧
    List.Pairwise (· ≤ ·) (deliveredProgress [CallbackCall.prog 10,
        CallbackCall.seg ⟨0, 1, "x"⟩, CallbackCall.prog 50]) ∧
    ((∀ q ∈ emittedProgress (workerRun ⟨"m", LoadResult.ok,
          [CallbackCall.prog 10, CallbackCall.seg ⟨0, 1, "x"⟩, CallbackCall.prog 50],
          ModelOutcome.success []⟩ CancelSchedule.never), 0 ≤ q ∧ q ≤ 100) ∧
      List.Pairwise (· ≤ ·) (emittedProgress (workerRun ⟨"m", LoadResult.ok,
          [CallbackCall.prog 10, CallbackCall.seg ⟨0, 1, "x"⟩, CallbackCall.prog 50],
          ModelOutcome.success []⟩ CancelSchedule.never))) :=
  ⟨by decide, by decide,
    progress_in_range_and_monotone _ CancelSchedule.never (by decide) (by decide)⟩

end PyWhisperCpp
